import Mathlib

/-!
Shallow embedding of the gomask `masker` package (src/masker/struct_masker.go).

Modelling conventions:
* Go strings are modelled as `List Char` (the claims only exercise byte-level
  slicing, which coincides with character-level slicing on the test alphabet);
  the mask "character" is a `List Char` because Go's `maskTag` is a string.
* Go panics (reflect value errors, negative `strings.Repeat` counts, slice
  bounds violations) are modelled as `Except GoPanic`.
* `reflect.New` allocations of nested struct copies are modelled with an
  explicit heap (`Heap := List GoStruct`); pointers are heap addresses.
  Pointers to strings carry only an opaque address: the traversal never reads
  or writes through them, and Go strings are immutable.
* Recursion through heap pointers is not structural (Go diverges on cyclic
  inputs, spec section 4.2), so the traversal takes a fuel parameter;
  exhaustion yields the model-artifact error `outOfFuel`.  Likewise
  `danglingPointer` marks heap addresses without a cell, which cannot arise
  from Go's type system.
* Go's regexp engine is an external library; the string-level
  `MaskStringRegex` is taken as a parameter `rx : RegexEngine` and threaded
  into the registry, exactly where the source calls it.
-/

/-- Runtime failures of the Go source: `reflectValueError` models the
`*reflect.ValueError` panics raised by `reflect.Value.NumField` /
`reflect.Value.Type` on non-struct or zero values, `negativeRepeatCount`
models the `strings.Repeat` panic on a negative count, `sliceBounds` models
Go slice-bounds panics; `outOfFuel` and `danglingPointer` are artifacts of
the fuel/heap model and are unreachable from well-formed Go executions. -/
inductive GoPanic : Type where
  | reflectValueError : GoPanic
  | negativeRepeatCount : GoPanic
  | sliceBounds : GoPanic
  | outOfFuel : GoPanic
  | danglingPointer : GoPanic
deriving DecidableEq, Repr

mutual
/-- Values a struct field can hold: plain strings, other scalars (modelled by
`intV`), pointers to strings, pointers to structs (heap addresses, `none` is
the nil pointer), and nested structs by value. -/
inductive GoVal : Type where
  | str : List Char → GoVal
  | intV : Int → GoVal
  | strPtr : Option Nat → GoVal
  | structPtr : Option Nat → GoVal
  | structV : GoStruct → GoVal

/-- A struct is an ordered list of fields; each field carries its `mask` tag,
its `maskTag` (mask character) tag, and its value.  Field names play no role
in the source algorithm and are omitted. -/
inductive GoStruct : Type where
  | nil : GoStruct
  | cons : List Char → List Char → GoVal → GoStruct → GoStruct
end

/-- Heap of struct cells produced by `reflect.New`; a `GoVal.structPtr
(some a)` points at cell `a`. -/
abbrev Heap : Type := List GoStruct

/-- Models `strings.Repeat` with a nonnegative count: the concatenation of
`k` copies of `mc`. -/
def goRepeatNat (mc : List Char) : Nat → List Char
  | 0 => []
  | k + 1 => mc ++ goRepeatNat mc k

/-- Models `strings.Repeat(mc, k)` on an `int` count: panics when the count
is negative. -/
def goRepeat (mc : List Char) (k : Int) : Except GoPanic (List Char) :=
  if k < 0 then .error .negativeRepeatCount else .ok (goRepeatNat mc k.toNat)

/-- Models the Go slice expression `s[:k]`: panics unless `0 ≤ k ≤ len(s)`. -/
def goTake (s : List Char) (k : Int) : Except GoPanic (List Char) :=
  if 0 ≤ k ∧ k ≤ (s.length : Int) then .ok (s.take k.toNat) else .error .sliceBounds

/-- Models the Go slice expression `s[k:]`: panics unless `0 ≤ k ≤ len(s)`. -/
def goDrop (s : List Char) (k : Int) : Except GoPanic (List Char) :=
  if 0 ≤ k ∧ k ≤ (s.length : Int) then .ok (s.drop k.toNat) else .error .sliceBounds

/-- Models the Go slice expression `s[a:b]`: panics unless `0 ≤ a ≤ b ≤ len(s)`. -/
def goSlice (s : List Char) (a b : Int) : Except GoPanic (List Char) :=
  if 0 ≤ a ∧ a ≤ b ∧ b ≤ (s.length : Int) then .ok ((s.take b.toNat).drop a.toNat)
  else .error .sliceBounds

/-- Models `strings.Split(s, sep)` for a one-character separator: splits on
every occurrence, keeping empty parts; the empty string yields `[[]]`. -/
def goSplit (sep : Char) : List Char → List (List Char)
  | [] => [[]]
  | c :: rest =>
    match goSplit sep rest with
    | [] => [[]]
    | p :: ps => if c = sep then [] :: p :: ps else (c :: p) :: ps

/-- Numeric value of a decimal digit character, `none` otherwise. -/
def digitVal (c : Char) : Option Nat :=
  if ('0' ≤ c ∧ c ≤ '9') then some (c.toNat - Char.toNat '0') else none

/-- Accumulating decimal parser over a digit list. -/
def digitsAcc (acc : Nat) : List Char → Option Nat
  | [] => some acc
  | c :: rest =>
    match digitVal c with
    | some d => digitsAcc (acc * 10 + d) rest
    | none => none

/-- Parses a nonempty all-digit list to a natural number. -/
def digitsToNat : List Char → Option Nat
  | [] => none
  | l => digitsAcc 0 l

/-- Models `strconv.Atoi`: optional sign followed by at least one digit.
(64-bit overflow is not modelled; no claim involves out-of-range bounds.) -/
def goAtoi : List Char → Option Int
  | [] => none
  | '+' :: ds => (digitsToNat ds).map Int.ofNat
  | '-' :: ds => (digitsToNat ds).map (fun k => -(k : Int))
  | ds => (digitsToNat ds).map Int.ofNat

/-- Source `MaskStringAll`: masks every character; `strings.Repeat(maskChar,
len(s))` never panics since a length is nonnegative. -/
def MaskStringAll (s mc : List Char) : List Char :=
  goRepeatNat mc s.length

/-- Source `MaskStringFirst`: masks the first `n` characters. -/
def MaskStringFirst (s : List Char) (n : Int) (mc : List Char) : Except GoPanic (List Char) :=
  if (s.length : Int) ≤ n then .ok (goRepeatNat mc s.length)
  else
    match goRepeat mc n with
    | .ok p =>
      match goDrop s n with
      | .ok suf => .ok (p ++ suf)
      | .error e => .error e
    | .error e => .error e

/-- Source `MaskStringLast`: masks the last `n` characters. -/
def MaskStringLast (s : List Char) (n : Int) (mc : List Char) : Except GoPanic (List Char) :=
  if (s.length : Int) ≤ n then .ok (goRepeatNat mc s.length)
  else
    match goTake s ((s.length : Int) - n) with
    | .ok pre =>
      match goRepeat mc n with
      | .ok p => .ok (pre ++ p)
      | .error e => .error e
    | .error e => .error e

/-- Source `MaskStringCorners`: masks the first `n` and last `m` characters. -/
def MaskStringCorners (s : List Char) (n m : Int) (mc : List Char) : Except GoPanic (List Char) :=
  if (s.length : Int) ≤ n + m then .ok (goRepeatNat mc s.length)
  else
    match goRepeat mc n with
    | .ok p1 =>
      match goSlice s n ((s.length : Int) - m) with
      | .ok mid =>
        match goRepeat mc m with
        | .ok p2 => .ok (p1 ++ mid ++ p2)
        | .error e => .error e
      | .error e => .error e
    | .error e => .error e

/-- Source `MaskAllExceptCorners`: masks all except the first `n` and last `m`
characters; on insufficient length it returns the original string. -/
def MaskAllExceptCorners (s : List Char) (n m : Int) (mc : List Char) : Except GoPanic (List Char) :=
  if (s.length : Int) ≤ n + m then .ok s
  else
    match goTake s n with
    | .ok p1 =>
      match goRepeat mc ((s.length : Int) - n - m) with
      | .ok mid =>
        match goDrop s ((s.length : Int) - m) with
        | .ok p2 => .ok (p1 ++ mid ++ p2)
        | .error e => .error e
      | .error e => .error e
    | .error e => .error e

/-- Signature of `MaskStringRegex` in the source: given the subject string,
the pattern and the mask character, produce the replaced string.  Go's regexp
engine is an external library, so it is a parameter of the development. -/
abbrev RegexEngine : Type := List Char → List Char → List Char → List Char

/-- Capability of a masking strategy: the source interface method
`Mask(value, maskChar, tags) reflect.Value`. -/
abbrev Strategy : Type := List Char → List Char → List (List Char) → Except GoPanic GoVal

/-- Registry of strategies; an association list whose first match wins, so
prepending models the overwrite semantics of the Go map. -/
abbrev Registry : Type := List (List Char × Strategy)

/-- Source `MaskerManager.RegisterMasker`: insert-or-overwrite. -/
def RegisterMasker (r : Registry) (name : List Char) (s : Strategy) : Registry :=
  (name, s) :: r

/-- Source `MaskerManager.GetMasker`: lookup by name, `none` models the
`masker not registered` error. -/
def GetMasker : Registry → List Char → Option Strategy
  | [], _ => none
  | (k, s) :: rest, name => if k = name then some s else GetMasker rest name

/-- Source `MaskAll.Mask`. -/
def MaskAllMask : Strategy := fun value mc _tags =>
  .ok (.str (MaskStringAll value mc))

/-- Source `MaskRegex.Mask`: uses `tags[1]` as the pattern when present. -/
def MaskRegexMask (rx : RegexEngine) : Strategy := fun value mc tags =>
  match tags with
  | _ :: pat :: _ => .ok (.str (rx value pat mc))
  | _ => .ok (.str value)

/-- Source `MaskFirst.Mask`: parses `tags[1]` as the count, default 1. -/
def MaskFirstMask : Strategy := fun value mc tags =>
  match tags with
  | _ :: t1 :: _ =>
    match goAtoi t1 with
    | some n => (MaskStringFirst value n mc).map .str
    | none => (MaskStringFirst value 1 mc).map .str
  | _ => (MaskStringFirst value 1 mc).map .str

/-- Source `MaskLast.Mask`: parses `tags[1]` as the count, default 1. -/
def MaskLastMask : Strategy := fun value mc tags =>
  match tags with
  | _ :: t1 :: _ =>
    match goAtoi t1 with
    | some n => (MaskStringLast value n mc).map .str
    | none => (MaskStringLast value 1 mc).map .str
  | _ => (MaskStringLast value 1 mc).map .str

/-- Source `MaskCorners.Mask`: splits `tags[1]` on a dash into two counts,
default 1-1 on any parse failure. -/
def MaskCornersMask : Strategy := fun value mc tags =>
  match tags with
  | _ :: t1 :: _ =>
    match goSplit '-' t1 with
    | [a, b] =>
      match goAtoi a, goAtoi b with
      | some nf, some nl => (MaskStringCorners value nf nl mc).map .str
      | _, _ => (MaskStringCorners value 1 1 mc).map .str
    | _ => (MaskStringCorners value 1 1 mc).map .str
  | _ => (MaskStringCorners value 1 1 mc).map .str

/-- Source `MaskBetween.Mask`: splits `tags[1]` on a dash into two counts,
default 1-1 on any parse failure. -/
def MaskBetweenMask : Strategy := fun value mc tags =>
  match tags with
  | _ :: t1 :: _ =>
    match goSplit '-' t1 with
    | [a, b] =>
      match goAtoi a, goAtoi b with
      | some nf, some nl => (MaskAllExceptCorners value nf nl mc).map .str
      | _, _ => (MaskAllExceptCorners value 1 1 mc).map .str
    | _ => (MaskAllExceptCorners value 1 1 mc).map .str
  | _ => (MaskAllExceptCorners value 1 1 mc).map .str

/-- Name of the built-in `all` strategy. -/
def allName : List Char := ['a', 'l', 'l']

/-- Name of the built-in `regex` strategy. -/
def regexName : List Char := ['r', 'e', 'g', 'e', 'x']

/-- Name of the built-in `first` strategy. -/
def firstName : List Char := ['f', 'i', 'r', 's', 't']

/-- Name of the built-in `last` strategy. -/
def lastName : List Char := ['l', 'a', 's', 't']

/-- Name of the built-in `corners` strategy. -/
def cornersName : List Char := ['c', 'o', 'r', 'n', 'e', 'r', 's']

/-- Name of the built-in `between` strategy. -/
def betweenName : List Char := ['b', 'e', 't', 'w', 'e', 'e', 'n']

/-- Source `NewMasker`: a registry pre-seeded with the six built-ins. -/
def NewMasker (rx : RegexEngine) : Registry :=
  RegisterMasker
    (RegisterMasker
      (RegisterMasker
        (RegisterMasker
          (RegisterMasker
            (RegisterMasker [] allName MaskAllMask)
            regexName (MaskRegexMask rx))
          firstName MaskFirstMask)
        lastName MaskLastMask)
      cornersName MaskCornersMask)
    betweenName MaskBetweenMask

/-- Source `maskField`: defaults the mask character to an asterisk, and only
string-kind fields are dispatched to a strategy; every other kind (including
pointers and nested structs) is returned unchanged, as is a string whose
method is not registered. -/
def maskField (reg : Registry) (maskTag maskCharTag : List Char) (field : GoVal) :
    Except GoPanic GoVal :=
  let mc := if maskCharTag = [] then ['*'] else maskCharTag
  match field with
  | .str s =>
    let tagParts := goSplit ',' maskTag
    match GetMasker reg (tagParts.headD []) with
    | some strat => strat s mc tagParts
    | none => .ok (.str s)
  | f => .ok f

/-- Field loop of the source `maskValue` (lines 100-121): for each field, a
nonempty `mask` tag dispatches to `maskField`; otherwise struct-kind fields
are recursively masked (fresh heap cell for non-nil pointers, nil pointers
stay nil) and all other fields are copied unchanged.  Recursive `maskValue`
calls on struct-kind operands reduce to this loop, since their pointer branch
is statically excluded; fresh cells are appended after the recursive call,
which only renames addresses relative to Go's allocate-then-fill order. -/
def maskFields (reg : Registry) : Nat → Heap → GoStruct → Except GoPanic (Heap × GoStruct)
  | 0, _, _ => .error .outOfFuel
  | _ + 1, h, .nil => .ok (h, .nil)
  | fuel + 1, h, .cons t mt fv rest =>
    let step : Except GoPanic (Heap × GoVal) :=
      if t = [] then
        match fv with
        | .structV fs =>
          match maskFields reg fuel h fs with
          | .ok (h1, fs1) => .ok (h1, .structV fs1)
          | .error e => .error e
        | .structPtr (some a) =>
          match h.get? a with
          | some cell =>
            match maskFields reg fuel h cell with
            | .ok (h1, fs1) => .ok (h1 ++ [fs1], .structPtr (some h1.length))
            | .error e => .error e
          | none => .error .danglingPointer
        | f => .ok (h, f)
      else
        match maskField reg t mt fv with
        | .ok f1 => .ok (h, f1)
        | .error e => .error e
    match step with
    | .ok (h1, f1) =>
      match maskFields reg fuel h1 rest with
      | .ok (h2, rest1) => .ok (h2, .cons t mt f1 rest1)
      | .error e => .error e
    | .error e => .error e

/-- Source `maskValue` entry (lines 91-97): dereference a pointer argument,
then build the masked copy of the struct.  A non-struct operand panics in Go
when `NumField` (or `Type` on the zero value behind a nil pointer) is
reached; both panics carry a `reflect.ValueError`. -/
def maskValue (reg : Registry) (fuel : Nat) (h : Heap) (v : GoVal) :
    Except GoPanic (Heap × GoStruct) :=
  match v with
  | .structV fs => maskFields reg fuel h fs
  | .structPtr (some a) =>
    match h.get? a with
    | some cell => maskFields reg fuel h cell
    | none => .error .danglingPointer
  | .structPtr none => .error .reflectValueError
  | _ => .error .reflectValueError

/-- Source `MaskStruct`: `maskValue(reflect.ValueOf(v)).Interface()` — the
result is the fresh struct value built by `maskValue`. -/
def MaskStruct (reg : Registry) (fuel : Nat) (h : Heap) (v : GoVal) :
    Except GoPanic (Heap × GoVal) :=
  (maskValue reg fuel h v).map (fun p => (p.1, GoVal.structV p.2))

deriving instance DecidableEq for GoVal
deriving instance DecidableEq for GoStruct

/-- Observer: whether a value is reference-shaped (a pointer) as opposed to a
plain value; used to state pointer-vs-value shape claims. -/
def isRefShape : GoVal → Bool
  | .structPtr _ => true
  | .strPtr _ => true
  | _ => false

/-- Observer: whether a root value dereferences to an actual record: a struct
value or a non-nil pointer to a struct.  A nil struct pointer is excluded
because Go panics on `reflect.Value.Type` of the zero value behind it. -/
def validRecordRoot : GoVal → Bool
  | .structV _ => true
  | .structPtr (some _) => true
  | _ => false

/-- Concrete regex engine used in witnesses: leaves the subject unchanged
(the behaviour of Go regexp when the pattern matches nothing). -/
def rxId : RegexEngine := fun v _pat _mc => v

/-- Concrete recording regex engine used to observe which pattern string the
dispatcher hands to the regex strategy: it returns the received pattern. -/
def rxRec : RegexEngine := fun _v pat _mc => pat

/-- Witness scenario: a heap cell holding a nested record with an `all`-tagged
string field `ab`. -/
def childCell : GoStruct := .cons allName [] (.str ['a', 'b']) .nil

/-- Witness scenario: a record whose single untagged field points at heap
cell 0. -/
def parentRec : GoStruct := .cons [] [] (.structPtr (some 0)) .nil

/-- Witness scenario: the masked copy of `childCell`. -/
def maskedChildCell : GoStruct := .cons allName [] (.str ['*', '*']) .nil

/-- Length of a repeated single mask character. -/
theorem goRepeatNat_singleton_length (c : Char) (k : Nat) :
    (goRepeatNat [c] k).length = k := by
  induction k with
  | zero => rfl
  | succ k ih => simp [goRepeatNat, ih]

/-- C5: for every string s, whenever the parsed bound counts meet or exceed
len(s), the first, last and corners strategies return the mask character
repeated len(s) times (fully masked, same length), while the between strategy
returns the original string s unmodified. -/
theorem C5_insufficient_length_per_strategy (s mc : List Char) (n m : Int) :
    ((s.length : Int) ≤ n →
      MaskStringFirst s n mc = .ok (goRepeatNat mc s.length) ∧
      MaskStringLast s n mc = .ok (goRepeatNat mc s.length)) ∧
    ((s.length : Int) ≤ n + m →
      MaskStringCorners s n m mc = .ok (goRepeatNat mc s.length) ∧
      MaskAllExceptCorners s n m mc = .ok s) := by
  constructor
  · intro hle
    exact ⟨by simp [MaskStringFirst, hle], by simp [MaskStringLast, hle]⟩
  · intro hle
    exact ⟨by simp [MaskStringCorners, hle], by simp [MaskAllExceptCorners, hle]⟩

/-- Witness for C5 at s = ab, n = 3, m = 0, mask character asterisk. -/
theorem C5_witness :
    MaskStringFirst ['a', 'b'] 3 ['*'] = .ok ['*', '*'] ∧
    MaskStringLast ['a', 'b'] 3 ['*'] = .ok ['*', '*'] ∧
    MaskStringCorners ['a', 'b'] 3 0 ['*'] = .ok ['*', '*'] ∧
    MaskAllExceptCorners ['a', 'b'] 3 0 ['*'] = .ok ['a', 'b'] := by
  have h := C5_insufficient_length_per_strategy ['a', 'b'] ['*'] 3 0
  have h1 := h.1 (by decide)
  have h2 := h.2 (by decide)
  exact ⟨h1.1, h1.2, h2.1, h2.2⟩

/-- C6 counterexample: between with len(s) = 2 and n = m = 1 returns the
original string, not a fully masked one. -/
theorem C6_counterexample :
    MaskAllExceptCorners ['a', 'b'] 1 1 ['*'] = .ok ['a', 'b'] ∧
    (['a', 'b'] : List Char) ≠ ['*', '*'] :=
  ⟨rfl, by decide⟩

/-- C6 amended: for the between method, for every string s and bounds n, m
with len(s) <= n+m, the result is the original string s unmodified (not a
fully masked string). -/
theorem C6_between_insufficient_returns_original (s mc : List Char) (n m : Int)
    (hle : (s.length : Int) ≤ n + m) :
    MaskAllExceptCorners s n m mc = .ok s := by
  simp [MaskAllExceptCorners, hle]

/-- Witness for the amended C6 at s = xyz, n = 2, m = 1. -/
theorem C6_witness :
    MaskAllExceptCorners ['x', 'y', 'z'] 2 1 ['#'] = .ok ['x', 'y', 'z'] :=
  C6_between_insufficient_returns_original ['x', 'y', 'z'] ['#'] 2 1 (by decide)

/-- C9: for every string s and every single-character mask character c,
re-masking a fully-all-masked string with all yields an unchanged result of
the same length. -/
theorem C9_all_idempotent_on_masked (s : List Char) (c : Char) :
    MaskStringAll (MaskStringAll s [c]) [c] = MaskStringAll s [c] := by
  simp [MaskStringAll, goRepeatNat_singleton_length]

/-- Lookup of the regex built-in in a freshly constructed registry. -/
theorem getMasker_NewMasker_regex (rx : RegexEngine) :
    GetMasker (NewMasker rx) regexName = some (MaskRegexMask rx) := rfl

/-- C4: for every string field whose directive names a method that is not in
the registry, maskField copies the original value unchanged and MaskStruct
reports no error for a record holding such a field (fail-open). -/
theorem C4_unknown_method_fail_open (reg : Registry) (fuel : Nat) (h : Heap)
    (t mt s : List Char)
    (hlook : GetMasker reg ((goSplit ',' t).headD []) = none) :
    maskField reg t mt (.str s) = .ok (.str s) ∧
    MaskStruct reg (fuel + 2) h (.structV (.cons t mt (.str s) .nil)) =
      .ok (h, .structV (.cons t mt (.str s) .nil)) := by
  have hmf : maskField reg t mt (.str s) = .ok (.str s) := by
    simp only [maskField]
    rw [hlook]
  refine ⟨hmf, ?_⟩
  by_cases ht : t = []
  · subst ht
    simp [MaskStruct, maskValue, maskFields, Except.map]
  · simp [MaskStruct, maskValue, maskFields, ht, hmf, Except.map]

/-- Witness for C4: the method nope is not registered; the field survives and
no error is produced. -/
theorem C4_witness :
    maskField (NewMasker rxId) ['n', 'o', 'p', 'e'] [] (.str ['T', 'e', 's', 't']) =
      .ok (.str ['T', 'e', 's', 't']) ∧
    MaskStruct (NewMasker rxId) 2 []
        (.structV (.cons ['n', 'o', 'p', 'e'] [] (.str ['T', 'e', 's', 't']) .nil)) =
      .ok ([], .structV (.cons ['n', 'o', 'p', 'e'] [] (.str ['T', 'e', 's', 't']) .nil)) :=
  C4_unknown_method_fail_open (NewMasker rxId) 0 [] ['n', 'o', 'p', 'e'] []
    ['T', 'e', 's', 't'] rfl

/-- C7 counterexample: the directive regex,a,b is split at every comma, so
the regex strategy receives only the token a, not the full remainder a,b.
The recording engine rxRec returns the pattern it received as the masked
value, making the received pattern observable. -/
theorem C7_counterexample :
    maskField (NewMasker rxRec) ['r', 'e', 'g', 'e', 'x', ',', 'a', ',', 'b'] []
        (.str ['v']) = .ok (.str ['a']) ∧
    (['a'] : List Char) ≠ ['a', ',', 'b'] ∧
    goSplit ',' ['r', 'e', 'g', 'e', 'x', ',', 'a', ',', 'b'] =
      [regexName, ['a'], ['b']] :=
  ⟨rfl, by decide, by decide⟩

/-- C7 amended: the tag string is split on every comma and the strategy
receives the full token list; the regex strategy uses only the token between
the first and second comma as its pattern, so a pattern containing a comma is
truncated at its first comma. -/
theorem C7_regex_receives_second_token (rx : RegexEngine) (t mt v p : List Char)
    (ps : List (List Char)) (hmt : mt ≠ [])
    (hsplit : goSplit ',' t = regexName :: p :: ps) :
    maskField (NewMasker rx) t mt (.str v) = .ok (.str (rx v p mt)) := by
  simp only [maskField, hsplit, List.headD_cons]
  rw [getMasker_NewMasker_regex]
  simp [MaskRegexMask, hmt]

/-- Witness for the amended C7 at tag regex,aa with mask character hash. -/
theorem C7_witness :
    maskField (NewMasker rxRec) ['r', 'e', 'g', 'e', 'x', ',', 'a', 'a'] ['#']
      (.str ['v']) = .ok (.str ['a', 'a']) :=
  C7_regex_receives_second_token rxRec ['r', 'e', 'g', 'e', 'x', ',', 'a', 'a'] ['#']
    ['v'] ['a', 'a'] [] (by decide) (by decide)

/-- C10: a pointer-to-string field carrying a masking directive is stored in
the copy unchanged: the output field holds the same pointer (address) as the
input field, and the heap is untouched, so the pointed-to string is not
masked; the directive is silently ignored for non-string kinds. -/
theorem C10_strptr_directive_ignored (reg : Registry) (fuel : Nat) (h : Heap)
    (t mt : List Char) (a : Option Nat) (ht : t ≠ []) :
    maskField reg t mt (.strPtr a) = .ok (.strPtr a) ∧
    MaskStruct reg (fuel + 2) h (.structV (.cons t mt (.strPtr a) .nil)) =
      .ok (h, .structV (.cons t mt (.strPtr a) .nil)) := by
  constructor
  · simp [maskField]
  · simp [MaskStruct, maskValue, maskFields, ht, maskField, Except.map]

/-- Witness for C10: an all-tagged pointer-to-string field at address 7
passes through with the same address under the default registry. -/
theorem C10_witness :
    maskField (NewMasker rxId) allName [] (.strPtr (some 7)) = .ok (.strPtr (some 7)) ∧
    MaskStruct (NewMasker rxId) 2 []
        (.structV (.cons allName [] (.strPtr (some 7)) .nil)) =
      .ok ([], .structV (.cons allName [] (.strPtr (some 7)) .nil)) :=
  C10_strptr_directive_ignored (NewMasker rxId) 0 [] allName [] (some 7) (by decide)

/-- Frame property of the field loop: a successful run only appends freshly
allocated cells to the heap, leaving every pre-existing cell in place. -/
theorem maskFields_extends (reg : Registry) :
    ∀ (fuel : Nat) (h : Heap) (gs : GoStruct) (h1 : Heap) (out : GoStruct),
      maskFields reg fuel h gs = .ok (h1, out) → ∃ ext, h1 = h ++ ext := by
  intro fuel
  induction fuel with
  | zero =>
    intro h gs h1 out heq
    simp [maskFields] at heq
  | succ fuel ih =>
    intro h gs h1 out heq
    cases gs with
    | nil =>
      simp only [maskFields, Except.ok.injEq, Prod.mk.injEq] at heq
      exact ⟨[], by simp [heq.1]⟩
    | cons t mt fv rest =>
      simp only [maskFields] at heq
      split at heq
      case h_2 => exact absurd heq (by simp)
      case h_1 h1' f1 hstep =>
        split at heq
        case h_2 => exact absurd heq (by simp)
        case h_1 h2' rest1 hrest =>
          obtain ⟨e2, he2⟩ := ih h1' rest h2' rest1 hrest
          simp only [Except.ok.injEq, Prod.mk.injEq] at heq
          obtain ⟨hh, -⟩ := heq
          subst hh
          subst he2
          split at hstep
          · split at hstep
            case isTrue.h_1 fs =>
              split at hstep
              case h_1 ha fs1 hrec =>
                obtain ⟨e1, he1⟩ := ih h fs ha fs1 hrec
                simp only [Except.ok.injEq, Prod.mk.injEq] at hstep
                obtain ⟨hh1, -⟩ := hstep
                subst hh1
                exact ⟨e1 ++ e2, by simp [he1]⟩
              case h_2 => exact absurd hstep (by simp)
            case isTrue.h_2 a =>
              split at hstep
              case h_1 cell hcell =>
                split at hstep
                case h_1 ha fs1 hrec =>
                  obtain ⟨e1, he1⟩ := ih h cell ha fs1 hrec
                  simp only [Except.ok.injEq, Prod.mk.injEq] at hstep
                  obtain ⟨hh1, -⟩ := hstep
                  subst hh1
                  exact ⟨e1 ++ [fs1] ++ e2, by simp [he1]⟩
                case h_2 => exact absurd hstep (by simp)
              case h_2 => exact absurd hstep (by simp)
            case isTrue.h_3 =>
              simp only [Except.ok.injEq, Prod.mk.injEq] at hstep
              obtain ⟨hh1, -⟩ := hstep
              subst hh1
              exact ⟨e2, rfl⟩
          · split at hstep
            case isFalse.h_1 f1' hmf =>
              simp only [Except.ok.injEq, Prod.mk.injEq] at hstep
              obtain ⟨hh1, -⟩ := hstep
              subst hh1
              exact ⟨e2, rfl⟩
            case isFalse.h_2 => exact absurd hstep (by simp)

/-- Frame property lifted to `maskValue`. -/
theorem maskValue_extends (reg : Registry) (fuel : Nat) (h : Heap) (v : GoVal)
    (h1 : Heap) (out : GoStruct) (heq : maskValue reg fuel h v = .ok (h1, out)) :
    ∃ ext, h1 = h ++ ext := by
  cases v with
  | structV fs => exact maskFields_extends reg fuel h fs h1 out heq
  | structPtr a =>
    cases a with
    | none => simp [maskValue] at heq
    | some a =>
      simp only [maskValue] at heq
      split at heq
      case h_1 cell hcell => exact maskFields_extends reg fuel h cell h1 out heq
      case h_2 => exact absurd heq (by simp)
  | str s => simp [maskValue] at heq
  | intV n => simp [maskValue] at heq
  | strPtr a => simp [maskValue] at heq

/-- C1: a successful MaskStruct call never mutates its input: every heap cell
that existed before the call (the storage of the record r and of every nested
record it contains or references) is still present, unchanged and at the same
address afterwards; all cells of the returned copy are freshly appended
beyond the original heap, so the copy is independently allocated. -/
theorem C1_mask_struct_never_mutates (reg : Registry) (fuel : Nat) (h h1 : Heap)
    (v out : GoVal) (heq : MaskStruct reg fuel h v = .ok (h1, out)) :
    ∃ ext, h1 = h ++ ext := by
  unfold MaskStruct at heq
  cases hmv : maskValue reg fuel h v with
  | ok p =>
    rw [hmv] at heq
    simp only [Except.map, Except.ok.injEq, Prod.mk.injEq] at heq
    obtain ⟨hh, -⟩ := heq
    subst hh
    exact maskValue_extends reg fuel h v p.1 p.2 hmv
  | error e =>
    rw [hmv] at heq
    simp [Except.map] at heq

/-- Witness for C1: masking a record that references heap cell 0 leaves that
cell in place and appends the fresh masked copy after it. -/
theorem C1_witness :
    ∃ ext, ([childCell, maskedChildCell] : Heap) = [childCell] ++ ext :=
  C1_mask_struct_never_mutates (NewMasker rxId) 5 [childCell]
    [childCell, maskedChildCell] (GoVal.structV parentRec)
    (.structV (.cons [] [] (.structPtr (some 1)) .nil)) rfl

/-- C2 counterexample: a pointer-to-record input produces a plain record
value, not a reference; the pointer shape of the input is not preserved. -/
theorem C2_counterexample :
    isRefShape (GoVal.structPtr (some 0)) = true ∧
    (MaskStruct (NewMasker rxId) 5 [GoStruct.nil] (GoVal.structPtr (some 0))).map
      (fun p => isRefShape p.2) = .ok false :=
  ⟨rfl, rfl⟩

/-- C2 amended: MaskStruct always returns a record value; a pointer-to-record
input is dereferenced and its masked copy is returned by value, so the
pointer-vs-value shape of the input is not preserved for pointer inputs. -/
theorem C2_result_always_struct_value (reg : Registry) (fuel : Nat) (h h1 : Heap)
    (v out : GoVal) (heq : MaskStruct reg fuel h v = .ok (h1, out)) :
    ∃ fs, out = GoVal.structV fs := by
  unfold MaskStruct at heq
  cases hmv : maskValue reg fuel h v with
  | ok p =>
    rw [hmv] at heq
    simp only [Except.map, Except.ok.injEq, Prod.mk.injEq] at heq
    exact ⟨p.2, heq.2.symm⟩
  | error e =>
    rw [hmv] at heq
    simp [Except.map] at heq

/-- Witness for the amended C2: the pointer input of the C2 counterexample
yields a struct value. -/
theorem C2_witness :
    ∃ fs, GoVal.structV GoStruct.nil = GoVal.structV fs :=
  C2_result_always_struct_value (NewMasker rxId) 5 [GoStruct.nil] [GoStruct.nil]
    (GoVal.structPtr (some 0)) (.structV GoStruct.nil) rfl

/-- C3 counterexample: a nested-record field that carries a masking directive
is copied unchanged instead of being recursively masked: the inner all-tagged
string ab survives, where the claim requires the recursively masked copy
(whose inner field would be two asterisks, `maskedChildCell`). -/
theorem C3_counterexample :
    MaskStruct (NewMasker rxId) 5 []
        (GoVal.structV (.cons cornersName [] (.structV childCell) .nil)) =
      .ok ([], .structV (.cons cornersName [] (.structV childCell) .nil)) ∧
    childCell ≠ maskedChildCell :=
  ⟨rfl, by decide⟩

/-- C3 amended: for a nested-record field without a masking directive, a nil
optional reference stays absent, a present reference is recursively masked
into a freshly appended heap cell (its address is past every pre-existing
cell), and a by-value nested record is recursively masked in place; but a
nested-record field that carries a masking directive is copied unchanged,
with no recursion, because the directive branch is taken first and ignores
non-string kinds. -/
theorem C3_nested_record_fields (reg : Registry) (fuel : Nat) (h : Heap)
    (t mt : List Char) (fs cell : GoStruct) (a : Nat) :
    (MaskStruct reg (fuel + 2) h (.structV (.cons [] mt (.structPtr none) .nil)) =
        .ok (h, .structV (.cons [] mt (.structPtr none) .nil))) ∧
    (h.get? a = some cell →
      ∀ h1 out, maskFields reg (fuel + 1) h cell = .ok (h1, out) →
        MaskStruct reg (fuel + 2) h (.structV (.cons [] mt (.structPtr (some a)) .nil)) =
          .ok (h1 ++ [out], .structV (.cons [] mt (.structPtr (some h1.length)) .nil)) ∧
        h.length ≤ h1.length) ∧
    (∀ h1 out, maskFields reg (fuel + 1) h fs = .ok (h1, out) →
      MaskStruct reg (fuel + 2) h (.structV (.cons [] mt (.structV fs) .nil)) =
        .ok (h1, .structV (.cons [] mt (.structV out) .nil))) ∧
    (t ≠ [] →
      MaskStruct reg (fuel + 2) h (.structV (.cons t mt (.structV fs) .nil)) =
        .ok (h, .structV (.cons t mt (.structV fs) .nil)) ∧
      MaskStruct reg (fuel + 2) h (.structV (.cons t mt (.structPtr (some a)) .nil)) =
        .ok (h, .structV (.cons t mt (.structPtr (some a)) .nil))) := by
  refine ⟨?_, ?_, ?_, ?_⟩
  · simp [MaskStruct, maskValue, maskFields, Except.map]
  · intro hcell h1 out hrec
    rw [List.get?_eq_getElem?] at hcell
    constructor
    · simp [MaskStruct, maskValue, maskFields, hcell, hrec, Except.map]
    · obtain ⟨ext, hext⟩ := maskFields_extends reg (fuel + 1) h cell h1 out hrec
      subst hext
      simp
  · intro h1 out hrec
    simp [MaskStruct, maskValue, maskFields, hrec, Except.map]
  · intro ht
    constructor
    · simp [MaskStruct, maskValue, maskFields, ht, maskField, Except.map]
    · simp [MaskStruct, maskValue, maskFields, ht, maskField, Except.map]

/-- Witness for the amended C3: the present-reference conjunct at heap cell 0
holding `childCell`; the copy points at the freshly appended cell 1. -/
theorem C3_witness :
    MaskStruct (NewMasker rxId) 5 [childCell] (GoVal.structV parentRec) =
      .ok ([childCell, maskedChildCell],
           .structV (.cons [] [] (.structPtr (some 1)) .nil)) ∧
    ([childCell] : Heap).length ≤ ([childCell] : Heap).length := by
  have hp := (C3_nested_record_fields (NewMasker rxId) 3 [childCell] [] []
      GoStruct.nil childCell 0).2.1 rfl [childCell] maskedChildCell rfl
  exact ⟨hp.1, hp.2⟩

/-- goRepeat only fails with a negative-repeat panic. -/
theorem goRepeat_no_rve (mc : List Char) (k : Int) :
    goRepeat mc k ≠ .error .reflectValueError := by
  unfold goRepeat
  split <;> simp

/-- goTake only fails with a slice-bounds panic. -/
theorem goTake_no_rve (s : List Char) (k : Int) :
    goTake s k ≠ .error .reflectValueError := by
  unfold goTake
  split <;> simp

/-- goDrop only fails with a slice-bounds panic. -/
theorem goDrop_no_rve (s : List Char) (k : Int) :
    goDrop s k ≠ .error .reflectValueError := by
  unfold goDrop
  split <;> simp

/-- goSlice only fails with a slice-bounds panic. -/
theorem goSlice_no_rve (s : List Char) (a b : Int) :
    goSlice s a b ≠ .error .reflectValueError := by
  unfold goSlice
  split <;> simp

/-- Mapping a function over a result preserves freedom from the reflect
error. -/
theorem exceptMap_no_rve {α β : Type} (f : α → β) (x : Except GoPanic α)
    (hx : x ≠ .error .reflectValueError) :
    Except.map f x ≠ .error .reflectValueError := by
  cases x with
  | ok a => simp [Except.map]
  | error e => simpa [Except.map] using hx

/-- MaskStringFirst never raises the reflect error. -/
theorem MaskStringFirst_no_rve (s : List Char) (n : Int) (mc : List Char) :
    MaskStringFirst s n mc ≠ .error .reflectValueError := by
  unfold MaskStringFirst
  split
  · simp
  · split
    case h_1 p hp =>
      split
      case h_1 => simp
      case h_2 e he =>
        intro hx
        rw [Except.error.injEq] at hx
        subst hx
        exact goDrop_no_rve s n he
    case h_2 e he =>
      intro hx
      rw [Except.error.injEq] at hx
      subst hx
      exact goRepeat_no_rve mc n he

/-- MaskStringLast never raises the reflect error. -/
theorem MaskStringLast_no_rve (s : List Char) (n : Int) (mc : List Char) :
    MaskStringLast s n mc ≠ .error .reflectValueError := by
  unfold MaskStringLast
  split
  · simp
  · split
    case h_1 pre hpre =>
      split
      case h_1 => simp
      case h_2 e he =>
        intro hx
        rw [Except.error.injEq] at hx
        subst hx
        exact goRepeat_no_rve mc n he
    case h_2 e he =>
      intro hx
      rw [Except.error.injEq] at hx
      subst hx
      exact goTake_no_rve s ((s.length : Int) - n) he

/-- MaskStringCorners never raises the reflect error. -/
theorem MaskStringCorners_no_rve (s : List Char) (n m : Int) (mc : List Char) :
    MaskStringCorners s n m mc ≠ .error .reflectValueError := by
  unfold MaskStringCorners
  split
  · simp
  · split
    case h_1 p1 hp1 =>
      split
      case h_1 mid hmid =>
        split
        case h_1 => simp
        case h_2 e he =>
          intro hx
          rw [Except.error.injEq] at hx
          subst hx
          exact goRepeat_no_rve mc m he
      case h_2 e he =>
        intro hx
        rw [Except.error.injEq] at hx
        subst hx
        exact goSlice_no_rve s n ((s.length : Int) - m) he
    case h_2 e he =>
      intro hx
      rw [Except.error.injEq] at hx
      subst hx
      exact goRepeat_no_rve mc n he

/-- MaskAllExceptCorners never raises the reflect error. -/
theorem MaskAllExceptCorners_no_rve (s : List Char) (n m : Int) (mc : List Char) :
    MaskAllExceptCorners s n m mc ≠ .error .reflectValueError := by
  unfold MaskAllExceptCorners
  split
  · simp
  · split
    case h_1 p1 hp1 =>
      split
      case h_1 mid hmid =>
        split
        case h_1 => simp
        case h_2 e he =>
          intro hx
          rw [Except.error.injEq] at hx
          subst hx
          exact goDrop_no_rve s ((s.length : Int) - m) he
      case h_2 e he =>
        intro hx
        rw [Except.error.injEq] at hx
        subst hx
        exact goRepeat_no_rve mc ((s.length : Int) - n - m) he
    case h_2 e he =>
      intro hx
      rw [Except.error.injEq] at hx
      subst hx
      exact goTake_no_rve s n he

/-- MaskFirstMask never raises the reflect error. -/
theorem MaskFirstMask_no_rve (v mc : List Char) (tags : List (List Char)) :
    MaskFirstMask v mc tags ≠ .error .reflectValueError := by
  unfold MaskFirstMask
  split
  case h_1 t0 t1 rest =>
    split
    · exact exceptMap_no_rve _ _ (MaskStringFirst_no_rve v _ mc)
    · exact exceptMap_no_rve _ _ (MaskStringFirst_no_rve v 1 mc)
  case h_2 => exact exceptMap_no_rve _ _ (MaskStringFirst_no_rve v 1 mc)

/-- MaskLastMask never raises the reflect error. -/
theorem MaskLastMask_no_rve (v mc : List Char) (tags : List (List Char)) :
    MaskLastMask v mc tags ≠ .error .reflectValueError := by
  unfold MaskLastMask
  split
  case h_1 t0 t1 rest =>
    split
    · exact exceptMap_no_rve _ _ (MaskStringLast_no_rve v _ mc)
    · exact exceptMap_no_rve _ _ (MaskStringLast_no_rve v 1 mc)
  case h_2 => exact exceptMap_no_rve _ _ (MaskStringLast_no_rve v 1 mc)

/-- MaskCornersMask never raises the reflect error. -/
theorem MaskCornersMask_no_rve (v mc : List Char) (tags : List (List Char)) :
    MaskCornersMask v mc tags ≠ .error .reflectValueError := by
  unfold MaskCornersMask
  split
  case h_1 t0 t1 rest =>
    split
    · split
      · exact exceptMap_no_rve _ _ (MaskStringCorners_no_rve v _ _ mc)
      · exact exceptMap_no_rve _ _ (MaskStringCorners_no_rve v 1 1 mc)
    · exact exceptMap_no_rve _ _ (MaskStringCorners_no_rve v 1 1 mc)
  case h_2 => exact exceptMap_no_rve _ _ (MaskStringCorners_no_rve v 1 1 mc)

/-- MaskBetweenMask never raises the reflect error. -/
theorem MaskBetweenMask_no_rve (v mc : List Char) (tags : List (List Char)) :
    MaskBetweenMask v mc tags ≠ .error .reflectValueError := by
  unfold MaskBetweenMask
  split
  case h_1 t0 t1 rest =>
    split
    · split
      · exact exceptMap_no_rve _ _ (MaskAllExceptCorners_no_rve v _ _ mc)
      · exact exceptMap_no_rve _ _ (MaskAllExceptCorners_no_rve v 1 1 mc)
    · exact exceptMap_no_rve _ _ (MaskAllExceptCorners_no_rve v 1 1 mc)
  case h_2 => exact exceptMap_no_rve _ _ (MaskAllExceptCorners_no_rve v 1 1 mc)

/-- Every strategy in the default registry is free of the reflect error. -/
theorem NewMasker_strategies_no_rve (rx : RegexEngine) (name : List Char)
    (strat : Strategy) (hlook : GetMasker (NewMasker rx) name = some strat)
    (v mc : List Char) (tags : List (List Char)) :
    strat v mc tags ≠ .error .reflectValueError := by
  simp only [NewMasker, RegisterMasker, GetMasker] at hlook
  split at hlook
  · rw [Option.some.injEq] at hlook
    subst hlook
    exact MaskBetweenMask_no_rve v mc tags
  · split at hlook
    · rw [Option.some.injEq] at hlook
      subst hlook
      exact MaskCornersMask_no_rve v mc tags
    · split at hlook
      · rw [Option.some.injEq] at hlook
        subst hlook
        exact MaskLastMask_no_rve v mc tags
      · split at hlook
        · rw [Option.some.injEq] at hlook
          subst hlook
          exact MaskFirstMask_no_rve v mc tags
        · split at hlook
          · rw [Option.some.injEq] at hlook
            subst hlook
            simp [MaskRegexMask]
            split <;> simp
          · split at hlook
            · rw [Option.some.injEq] at hlook
              subst hlook
              simp [MaskAllMask]
            · simp at hlook

/-- Field dispatch never raises the reflect error under the default
registry. -/
theorem maskField_no_rve (rx : RegexEngine) (t mt : List Char) (fv : GoVal) :
    maskField (NewMasker rx) t mt fv ≠ .error .reflectValueError := by
  cases fv with
  | str s =>
    simp only [maskField]
    split
    case h_1 strat hlook =>
      exact NewMasker_strategies_no_rve rx _ strat hlook s _ _
    case h_2 => simp
  | intV n => simp [maskField]
  | strPtr a => simp [maskField]
  | structPtr a => simp [maskField]
  | structV fs => simp [maskField]

/-- The field loop under the default registry never raises the reflect
error: the only error sources are strategy panics on malformed bounds and
the model artifacts (fuel, dangling pointers). -/
theorem maskFields_no_rve (rx : RegexEngine) :
    ∀ (fuel : Nat) (h : Heap) (gs : GoStruct),
      maskFields (NewMasker rx) fuel h gs ≠ .error .reflectValueError := by
  intro fuel
  induction fuel with
  | zero =>
    intro h gs
    simp [maskFields]
  | succ fuel ih =>
    intro h gs
    cases gs with
    | nil => simp [maskFields]
    | cons t mt fv rest =>
      intro heq
      simp only [maskFields] at heq
      split at heq
      case h_1 h1' f1 hstep =>
        split at heq
        case h_1 => exact absurd heq (by simp)
        case h_2 e hrest =>
          rw [Except.error.injEq] at heq
          subst heq
          exact ih h1' rest hrest
      case h_2 e hstep =>
        rw [Except.error.injEq] at heq
        subst heq
        split at hstep
        · split at hstep
          case isTrue.h_1 fs =>
            split at hstep
            case h_1 => exact absurd hstep (by simp)
            case h_2 e' hrec =>
              rw [Except.error.injEq] at hstep
              subst hstep
              exact ih h fs hrec
          case isTrue.h_2 a =>
            split at hstep
            case h_1 cell hcell =>
              split at hstep
              case h_1 => exact absurd hstep (by simp)
              case h_2 e' hrec =>
                rw [Except.error.injEq] at hstep
                subst hstep
                exact ih h cell hrec
            case h_2 =>
              rw [Except.error.injEq] at hstep
              exact absurd hstep (by simp)
          case isTrue.h_3 => exact absurd hstep (by simp)
        · split at hstep
          case isFalse.h_1 => exact absurd hstep (by simp)
          case isFalse.h_2 e' hmf =>
            rw [Except.error.injEq] at hstep
            subst hstep
            exact maskField_no_rve rx t mt fv hmf

/-- C8 amended: under the default registry, MaskStruct surfaces the single
typed reflect error exactly when the root input does not dereference to a
record: a non-record scalar root, a pointer-to-string root, or a nil
pointer-to-record root.  A record or valid non-nil pointer-to-record root
never produces the typed reflect error (strategy panics on malformed
negative bound options are a distinct failure and are not the reflect
error). -/
theorem C8_reflect_error_iff (rx : RegexEngine) (fuel : Nat) (h : Heap) (v : GoVal) :
    MaskStruct (NewMasker rx) fuel h v = .error .reflectValueError ↔
      validRecordRoot v = false := by
  constructor
  · intro heq
    unfold MaskStruct at heq
    cases hmv : maskValue (NewMasker rx) fuel h v with
    | ok p =>
      rw [hmv] at heq
      simp [Except.map] at heq
    | error e =>
      rw [hmv] at heq
      simp only [Except.map] at heq
      rw [Except.error.injEq] at heq
      subst heq
      cases v with
      | structV fs => exact absurd hmv (maskFields_no_rve rx fuel h fs)
      | structPtr a =>
        cases a with
        | none => rfl
        | some a =>
          simp only [maskValue] at hmv
          split at hmv
          case h_1 cell hcell => exact absurd hmv (maskFields_no_rve rx fuel h cell)
          case h_2 =>
            rw [Except.error.injEq] at hmv
            exact absurd hmv (by simp)
      | str s => rfl
      | intV n => rfl
      | strPtr a => rfl
  · intro hroot
    cases v with
    | structV fs => simp [validRecordRoot] at hroot
    | structPtr a =>
      cases a with
      | none => rfl
      | some a => simp [validRecordRoot] at hroot
    | str s => rfl
    | intV n => rfl
    | strPtr a => rfl

/-- C8 counterexample: a nil pointer-to-record root makes MaskStruct fail
with the typed reflect error, contradicting the claim that every
pointer-to-record root input never yields an error. -/
theorem C8_counterexample :
    MaskStruct (NewMasker rxId) 5 [] (GoVal.structPtr none) =
      .error .reflectValueError ∧
    MaskStruct (NewMasker rxId) 5 [] (GoVal.intV 3) =
      .error .reflectValueError :=
  ⟨rfl, rfl⟩
